import Mathlib

/-!
Shallow embedding of the statement-inference core of sqltyper
(src/infer.ts) together with the data model it operates on.

The TypeScript source threads its computations through
TaskEither<string, A>; the schema client is the only source of
asynchrony and the whole pipeline is sequential, so TaskEither is
embedded as Except String.  The schema client itself, the SQL parser,
the AST module, the operator/function NULL-safety tables and the
statement-description types are external collaborators that are not
part of the sources; they are modelled from the spec where needed and
passed in as explicit arguments where the source imports them.
-/

namespace Sqltyper

/-! ## Data model -/

/-- Modelled from the spec: the null-safety categories of const-utils.ts
(section 4.2.2 of the spec).  The source category for operators that can
return NULL even on non-NULL operands is named notSafe here. -/
inductive NullSafety where
  | safe
  | notSafe
  | alwaysNull
  | neverNull
  deriving DecidableEq, Repr

/-- Modelled from the spec: operatorNullSafety from const-utils.ts, which is
not part of the sources.  Of the embedded constant table only the category
assignment matters to the inference core; safe and neverNull operators
follow the examples given in sections 4.2.1 and 4.2.2 of the spec, every
other operator (notably AND, OR and NOT) degrades to notSafe. -/
def operatorNullSafety (op : String) : NullSafety :=
  if op ∈ ["+", "-", "*", "=", "<", ">", "<=", ">=", "<>", "||"] then .safe
  else if op ∈ ["IS NULL", "IS NOT NULL", "ISNULL", "NOTNULL"] then .neverNull
  else .notSafe

/-- Modelled from the spec: functionNullSafety from const-utils.ts, which is
not part of the sources.  A few built-ins are classified safe, every other
function degrades to notSafe. -/
def functionNullSafety (funcName : String) : NullSafety :=
  if funcName ∈ ["lower", "upper", "length", "abs", "sqrt"] then .safe
  else .notSafe

/-- FieldNullability from src/infer.ts: the kind Any variant carries only
the outer nullable flag, the kind Array variant additionally carries the
element nullability. -/
inductive FieldNullability where
  | any (nullable : Bool)
  | array (nullable : Bool) (elemNullable : Bool)
  deriving DecidableEq, Repr

/-- The nullable field shared by both FieldNullability variants. -/
def FieldNullability.nullable : FieldNullability → Bool
  | .any n => n
  | .array n _ => n

/-- The element nullability of a FieldNullability, when it has one. -/
def FieldNullability.elemNullable? : FieldNullability → Option Bool
  | .any _ => none
  | .array _ e => some e

/-- Spread update of src/infer.ts setSourceColumnsAsNullable on one
nullability value: the nullable field is overwritten, everything else
(the kind and the element nullability) is kept. -/
def FieldNullability.withNullableTrue : FieldNullability → FieldNullability
  | .any _ => .any true
  | .array _ e => .array true e

/-- SourceColumn from src/infer.ts. -/
structure SourceColumn where
  tableAlias : String
  columnName : String
  nullability : FieldNullability
  hidden : Bool
  deriving DecidableEq, Repr

/-- VirtualField from src/infer.ts. -/
structure VirtualField where
  name : String
  nullability : FieldNullability
  deriving DecidableEq, Repr

/-- virtualField from src/infer.ts. -/
def virtualField (name : String) (nullability : FieldNullability) :
    VirtualField :=
  { name, nullability }

/-- VirtualTable from src/infer.ts. -/
structure VirtualTable where
  name : String
  columns : List VirtualField
  deriving DecidableEq, Repr

/-- Modelled from the spec: ValueType from types.ts, which is not part of
the sources.  Both variants carry the oid; the array variant carries the
element nullability, matching the use ValueType.array(oid, elemNullable)
in src/infer.ts and the column type of section 3 of the spec. -/
inductive ValueType where
  | any (oid : Int)
  | array (oid : Int) (elemNullable : Bool)
  deriving DecidableEq, Repr

/-- The oid carried by either ValueType variant. -/
def ValueType.oid : ValueType → Int
  | .any o => o
  | .array o _ => o

/-- Modelled from the spec: an element of StatementDescription.columns
(section 3 of the spec): name, type and driver-probed nullability. -/
structure ColumnDescription where
  name : String
  type : ValueType
  nullable : Bool
  deriving DecidableEq, Repr

/-- Modelled from the spec: an element of StatementDescription.params
(section 3 of the spec): oid and nullability, index 0 corresponds to $1. -/
structure ParamDescription where
  oid : Int
  nullable : Bool
  deriving DecidableEq, Repr

/-- StatementRowCount from types.ts, modelled from the spec
(section 3): zero, one, zeroOrOne or many. -/
inductive StatementRowCount where
  | zero
  | one
  | zeroOrOne
  | many
  deriving DecidableEq, Repr

/-- Modelled from the spec: StatementDescription from types.ts, which is
not part of the sources (section 3 of the spec). -/
structure StatementDescription where
  sql : String
  columns : List ColumnDescription
  params : List ParamDescription
  rowCount : StatementRowCount
  deriving DecidableEq, Repr

/-- Modelled from the spec: Column of the schema contract (section 3 of
the spec), as returned by the schema client. -/
structure Column where
  name : String
  type : ValueType
  nullable : Bool
  hidden : Bool
  deriving DecidableEq, Repr

/-- Modelled from the spec: Table of the schema contract (section 3 of
the spec). -/
structure Table where
  schema : String
  name : String
  columns : List Column
  deriving DecidableEq, Repr

/-- Modelled from the spec: the narrow schema-client interface
getTable(schema, name) of section 6.2 of the spec.  The inference core
receives it as an explicit argument where src/infer.ts receives the
SchemaClient. -/
def GetTable : Type :=
  Option String → String → Except String Table

/-- TableRef from the AST module: an optional schema and a table name. -/
structure TableRef where
  schema : Option String
  table : String
  deriving DecidableEq, Repr

/-- Join types of a qualified join, from section 4.1 of the spec. -/
inductive JoinType where
  | INNER
  | LEFT
  | RIGHT
  | FULL
  deriving DecidableEq, Repr

/-! ## AST

Modelled from the spec: the AST module ./ast imported by src/infer.ts is
not part of the sources.  The node sums follow section 4.1 of the spec
and the fields follow exactly the destructuring patterns used by
src/infer.ts; the select body is flattened into the select constructor.
Field names as and from are Lean keywords and are written asName,
fromExpr and whereExpr. -/

mutual

inductive Expression where
  | columnRef (column : String)
  | tableColumnRef (table : String) (column : String)
  | constant (valueText : String)
  | parameter (index : Nat)
  | unaryOp (op : String) (operand : Expression)
  | binaryOp (op : String) (lhs : Expression) (rhs : Expression)
  | functionCall (funcName : String) (argList : List Expression)
  | existsOp (subquery : AST)
  | inOp (lhs : Expression) (subquery : AST)
  | arraySubQuery (subquery : AST)
  | typeCast (lhs : Expression)

inductive SelectListItem where
  | allFields
  | allTableFields (tableName : String)
  | selectListExpression (expression : Expression) (asName : Option String)

inductive TableExpression where
  | table (table : TableRef) (asName : Option String)
  | subQuery (query : AST) (asName : String)
  | crossJoin (left : TableExpression) (right : TableExpression)
  | qualifiedJoin (left : TableExpression) (joinType : JoinType)
      (right : TableExpression)

inductive Limit where
  | mk (count : Option Expression) (offset : Option Expression)

inductive Values where
  | defaultValues
  | exprValues (valuesList : List (List (Option Expression)))

inductive UpdateAssignment where
  | mk (columnName : String) (value : Option Expression)

inductive WithQuery where
  | mk (asName : String) (query : AST)

inductive AST where
  | select (ctes : List WithQuery) (fromExpr : Option TableExpression)
      (whereExpr : Option Expression) (selectList : List SelectListItem)
      (limit : Option Limit)
  | insert (table : TableRef) (asName : Option String)
      (columns : List String) (values : Values)
      (returning : List SelectListItem)
  | update (ctes : List WithQuery) (table : TableRef)
      (asName : Option String) (updates : List UpdateAssignment)
      (fromExpr : Option TableExpression) (whereExpr : Option Expression)
      (returning : List SelectListItem)
  | delete (table : TableRef) (asName : Option String)
      (whereExpr : Option Expression) (returning : List SelectListItem)

end

/-- The count component of a LIMIT clause. -/
def Limit.count : Limit → Option Expression
  | .mk c _ => c

/-- The offset component of a LIMIT clause. -/
def Limit.offset : Limit → Option Expression
  | .mk _ o => o

/-- The assigned column name of an UPDATE SET assignment. -/
def UpdateAssignment.columnName : UpdateAssignment → String
  | .mk c _ => c

/-- The assigned value of an UPDATE SET assignment. -/
def UpdateAssignment.value : UpdateAssignment → Option Expression
  | .mk _ v => v

/-- The name a WITH query is bound to. -/
def WithQuery.asName : WithQuery → String
  | .mk a _ => a

/-- The body of a WITH query. -/
def WithQuery.query : WithQuery → AST
  | .mk _ q => q

/-! Modelled from the spec: ast.Expression.equals, the deep structural
equality on expression trees used for WHERE-based refinement
(sections 4.2.1 and 9 of the spec). -/

set_option maxHeartbeats 1000000 in
mutual

def Expression.equals (a b : Expression) : Bool :=
  match a, b with
  | .columnRef c1, .columnRef c2 => c1 == c2
  | .tableColumnRef t1 c1, .tableColumnRef t2 c2 => t1 == t2 && c1 == c2
  | .constant v1, .constant v2 => v1 == v2
  | .parameter i1, .parameter i2 => i1 == i2
  | .unaryOp o1 e1, .unaryOp o2 e2 => o1 == o2 && Expression.equals e1 e2
  | .binaryOp o1 l1 r1, .binaryOp o2 l2 r2 =>
      o1 == o2 && Expression.equals l1 l2 && Expression.equals r1 r2
  | .functionCall f1 a1, .functionCall f2 a2 =>
      f1 == f2 && Expression.equalsList a1 a2
  | .existsOp q1, .existsOp q2 => AST.equals q1 q2
  | .inOp l1 q1, .inOp l2 q2 => Expression.equals l1 l2 && AST.equals q1 q2
  | .arraySubQuery q1, .arraySubQuery q2 => AST.equals q1 q2
  | .typeCast l1, .typeCast l2 => Expression.equals l1 l2
  | _, _ => false
termination_by structural a

def Expression.equalsList (a b : List Expression) : Bool :=
  match a, b with
  | [], [] => true
  | e1 :: r1, e2 :: r2 => Expression.equals e1 e2 && Expression.equalsList r1 r2
  | _, _ => false
termination_by structural a

def Expression.equalsOpt (a b : Option Expression) : Bool :=
  match a, b with
  | none, none => true
  | some e1, some e2 => Expression.equals e1 e2
  | _, _ => false
termination_by structural a

def Expression.equalsOptList (a b : List (Option Expression)) : Bool :=
  match a, b with
  | [], [] => true
  | e1 :: r1, e2 :: r2 =>
      Expression.equalsOpt e1 e2 && Expression.equalsOptList r1 r2
  | _, _ => false
termination_by structural a

def Expression.equalsOptListList
    (a b : List (List (Option Expression))) : Bool :=
  match a, b with
  | [], [] => true
  | e1 :: r1, e2 :: r2 =>
      Expression.equalsOptList e1 e2 && Expression.equalsOptListList r1 r2
  | _, _ => false
termination_by structural a

def SelectListItem.equals (a b : SelectListItem) : Bool :=
  match a, b with
  | .allFields, .allFields => true
  | .allTableFields t1, .allTableFields t2 => t1 == t2
  | .selectListExpression e1 a1, .selectListExpression e2 a2 =>
      Expression.equals e1 e2 && a1 == a2
  | _, _ => false
termination_by structural a

def SelectListItem.equalsList (a b : List SelectListItem) : Bool :=
  match a, b with
  | [], [] => true
  | i1 :: r1, i2 :: r2 =>
      SelectListItem.equals i1 i2 && SelectListItem.equalsList r1 r2
  | _, _ => false
termination_by structural a

def TableExpression.equals (a b : TableExpression) : Bool :=
  match a, b with
  | .table t1 a1, .table t2 a2 => t1 == t2 && a1 == a2
  | .subQuery q1 a1, .subQuery q2 a2 => AST.equals q1 q2 && a1 == a2
  | .crossJoin l1 r1, .crossJoin l2 r2 =>
      TableExpression.equals l1 l2 && TableExpression.equals r1 r2
  | .qualifiedJoin l1 j1 r1, .qualifiedJoin l2 j2 r2 =>
      TableExpression.equals l1 l2 && j1 == j2 && TableExpression.equals r1 r2
  | _, _ => false
termination_by structural a

def TableExpression.equalsOpt (a b : Option TableExpression) : Bool :=
  match a, b with
  | none, none => true
  | some t1, some t2 => TableExpression.equals t1 t2
  | _, _ => false
termination_by structural a

def Limit.equals (a b : Limit) : Bool :=
  match a, b with
  | .mk c1 o1, .mk c2 o2 =>
      Expression.equalsOpt c1 c2 && Expression.equalsOpt o1 o2
termination_by structural a

def Limit.equalsOpt (a b : Option Limit) : Bool :=
  match a, b with
  | none, none => true
  | some l1, some l2 => Limit.equals l1 l2
  | _, _ => false
termination_by structural a

def Values.equals (a b : Values) : Bool :=
  match a, b with
  | .defaultValues, .defaultValues => true
  | .exprValues v1, .exprValues v2 => Expression.equalsOptListList v1 v2
  | _, _ => false
termination_by structural a

def UpdateAssignment.equals (a b : UpdateAssignment) : Bool :=
  match a, b with
  | .mk c1 v1, .mk c2 v2 => c1 == c2 && Expression.equalsOpt v1 v2
termination_by structural a

def UpdateAssignment.equalsList (a b : List UpdateAssignment) : Bool :=
  match a, b with
  | [], [] => true
  | u1 :: r1, u2 :: r2 =>
      UpdateAssignment.equals u1 u2 && UpdateAssignment.equalsList r1 r2
  | _, _ => false
termination_by structural a

def WithQuery.equals (a b : WithQuery) : Bool :=
  match a, b with
  | .mk a1 q1, .mk a2 q2 => a1 == a2 && AST.equals q1 q2
termination_by structural a

def WithQuery.equalsList (a b : List WithQuery) : Bool :=
  match a, b with
  | [], [] => true
  | w1 :: r1, w2 :: r2 =>
      WithQuery.equals w1 w2 && WithQuery.equalsList r1 r2
  | _, _ => false
termination_by structural a

def AST.equals (a b : AST) : Bool :=
  match a, b with
  | .select c1 f1 w1 s1 l1, .select c2 f2 w2 s2 l2 =>
      WithQuery.equalsList c1 c2 && TableExpression.equalsOpt f1 f2 &&
      Expression.equalsOpt w1 w2 && SelectListItem.equalsList s1 s2 &&
      Limit.equalsOpt l1 l2
  | .insert t1 a1 c1 v1 r1, .insert t2 a2 c2 v2 r2 =>
      t1 == t2 && a1 == a2 && c1 == c2 && Values.equals v1 v2 &&
      SelectListItem.equalsList r1 r2
  | .update c1 t1 a1 u1 f1 w1 r1, .update c2 t2 a2 u2 f2 w2 r2 =>
      WithQuery.equalsList c1 c2 && t1 == t2 && a1 == a2 &&
      UpdateAssignment.equalsList u1 u2 && TableExpression.equalsOpt f1 f2 &&
      Expression.equalsOpt w1 w2 && SelectListItem.equalsList r1 r2
  | .delete t1 a1 w1 r1, .delete t2 a2 w2 r2 =>
      t1 == t2 && a1 == a2 && Expression.equalsOpt w1 w2 &&
      SelectListItem.equalsList r1 r2
  | _, _ => false
termination_by structural a

end

/-! ## Helper functions of src/infer.ts that do not recurse through the
statement tree -/

/-- Truthiness of a JavaScript string-or-null value: null and the empty
string are falsy.  Used where src/infer.ts branches on such a value. -/
def jsTruthy : Option String → Bool
  | none => false
  | some s => s != ""

/-- The JavaScript expression a || b on a string-or-null a and a string b,
as used for alias fallbacks in src/infer.ts. -/
def jsStrOr : Option String → String → String
  | none, b => b
  | some a, b => if a == "" then b else a

/-- NonNullableColumn from src/infer.ts. -/
structure NonNullableColumn where
  tableName : Option String
  columnName : String
  deriving DecidableEq, Repr

/-- isColumnNonNullable from src/infer.ts.  The source body is the single
JavaScript expression

  nonNull.tableName
    ? sourceColumn.tableAlias === nonNull.tableName
    : true && sourceColumn.columnName === nonNull.columnName

in which the conditional operator binds last: for a record with a truthy
(hence nonempty) table name the whole result is the table-alias
comparison alone, and only for a record without one is it the
column-name comparison. -/
def isColumnNonNullable (nonNullableColumns : List NonNullableColumn)
    (sourceColumn : SourceColumn) : Bool :=
  nonNullableColumns.any fun nonNull =>
    if jsTruthy nonNull.tableName then
      some sourceColumn.tableAlias == nonNull.tableName
    else
      sourceColumn.columnName == nonNull.columnName

/-- applyExpressionNonNullability from src/infer.ts: collect the column
references among the non-null expressions, then force every matching
source column to the non-nullable scalar nullability. -/
def applyExpressionNonNullability (nonNullableExpressions : List Expression)
    (sourceColumns : List SourceColumn) : List SourceColumn :=
  let nonNullableColumns : List NonNullableColumn :=
    nonNullableExpressions.filterMap fun expr =>
      match expr with
      | .columnRef column => some { tableName := none, columnName := column }
      | .tableColumnRef table column =>
          some { tableName := some table, columnName := column }
      | _ => none
  sourceColumns.map fun sourceColumn =>
    { sourceColumn with
        nullability :=
          if isColumnNonNullable nonNullableColumns sourceColumn then
            .any false
          else sourceColumn.nullability }

/-- inferExpressionName from src/infer.ts. -/
def inferExpressionName : Expression → String
  | .columnRef column => column
  | .tableColumnRef _ column => column
  | _ => "?column?"

/-- getNonNullExpressionsFromWhere from src/infer.ts, on a present WHERE
expression (the walkSome handlers; every unhandled node yields []). -/
def getNonNullExpressionsFromWhereExpr (whereExpr : Expression) :
    List Expression :=
  match whereExpr with
  | .binaryOp op lhs rhs =>
      if op == "AND" then
        getNonNullExpressionsFromWhereExpr lhs ++
          getNonNullExpressionsFromWhereExpr rhs
      else if operatorNullSafety op == .safe then [lhs, rhs]
      else []
  | .unaryOp op operand =>
      if op == "IS NOT NULL" || op == "NOTNULL" then [operand] else []
  | .functionCall funcName argList =>
      if functionNullSafety funcName == .safe then argList else []
  | _ => []
termination_by structural whereExpr

/-- getNonNullExpressionsFromWhere from src/infer.ts: a missing WHERE
clause yields no non-null expressions. -/
def getNonNullExpressionsFromWhere : Option Expression → List Expression
  | none => []
  | some whereExpr => getNonNullExpressionsFromWhereExpr whereExpr

/-- applyColumnNullability from src/infer.ts: the invariant-1 validation
(column count, then the lists of names joined with a comma-space
separator) followed by the positional zip that overwrites each probed
column with the inferred nullability. -/
def applyColumnNullability (stmt : StatementDescription)
    (outputColumns : List VirtualField) :
    Except String StatementDescription :=
  if outputColumns.length != stmt.columns.length then
    .error ("BUG: Non-equal number of columns: inferred " ++
      toString outputColumns.length ++ ", actual " ++
      toString stmt.columns.length)
  else
    let inferredColumnNames :=
      String.intercalate ", " (outputColumns.map fun c => c.name)
    let actualColumnNames :=
      String.intercalate ", " (stmt.columns.map fun c => c.name)
    if inferredColumnNames != actualColumnNames then
      .error ("BUG: Inferred output column names do not equal actual " ++
        "output column names: inferred \"" ++ inferredColumnNames ++
        "\", actual: \"" ++ actualColumnNames ++ "\"")
    else
      .ok { stmt with
              columns := List.zipWith
                (fun column inferred =>
                  match inferred.nullability with
                  | .any nullable => { column with nullable }
                  | .array nullable elemNullable =>
                      { column with
                          type := ValueType.array column.type.oid elemNullable
                          nullable })
                stmt.columns outputColumns }

/-- ParamNullability from src/infer.ts: index 0 means param $1. -/
structure ParamNullability where
  index : Int
  nullable : Bool
  deriving DecidableEq, Repr

/-- paramIndexFromExpr from src/infer.ts: a bare parameter expression
yields its zero-based index. -/
def paramIndexFromExpr : Option Expression → Option Int
  | some (.parameter index) => some ((index : Int) - 1)
  | _ => none

/-- findParamsFromValues from src/infer.ts. -/
def findParamsFromValues (values : Values) (numInsertColumns : Nat) :
    List (List (Option Int)) :=
  match values with
  | .defaultValues => [List.replicate numInsertColumns none]
  | .exprValues valuesList =>
      valuesList.map fun vs => vs.map paramIndexFromExpr

/-- findTableColumn from src/infer.ts. -/
def findTableColumn (columnName : String) (table : Table) :
    Except String Column :=
  match table.columns.find? (fun column => column.name == columnName) with
  | some column => .ok column
  | none => .error ("Unknown column " ++ columnName)

/-- makeParamNullability from src/infer.ts. -/
def makeParamNullability (index : Option Int) (column : Column) :
    Option ParamNullability :=
  index.map fun index => { index := index, nullable := column.nullable }

/-- updateToParamNullability from src/infer.ts: the only Either effect in
the applicative chain is the target-column lookup. -/
def updateToParamNullability (dbTable : Table) (update : UpdateAssignment) :
    Except String (Option ParamNullability) :=
  (findTableColumn update.columnName dbTable).map
    (makeParamNullability (paramIndexFromExpr update.value))

/-- findParamNullabilityFromUpdates from src/infer.ts. -/
def findParamNullabilityFromUpdates (gt : GetTable) (table : TableRef)
    (updates : List UpdateAssignment) :
    Except String (List ParamNullability) := do
  let dbTable ← gt table.schema table.table
  let paramNullabilities ← updates.mapM (updateToParamNullability dbTable)
  pure (paramNullabilities.filterMap id)

/-- findInsertColumns from src/infer.ts. -/
def findInsertColumns (gt : GetTable) (table : TableRef)
    (columnNames : List String) : Except String (List Column) := do
  let dbTable ← gt table.schema table.table
  columnNames.mapM fun columnName => findTableColumn columnName dbTable

/-- combineParamNullability from src/infer.ts. -/
def combineParamNullability (valuesListParams : List (List (Option Int)))
    (targetColumns : List Column) : List ParamNullability :=
  ((valuesListParams.map fun valuesParams =>
      (targetColumns.zip valuesParams).map fun cp =>
        cp.2.map fun index =>
          ({ index := index, nullable := cp.1.nullable } : ParamNullability)
    ).flatten).filterMap id

/-- getParamNullability from src/infer.ts: only INSERT and UPDATE produce
binding records, SELECT and DELETE produce null. -/
def getParamNullability (gt : GetTable) (tree : AST) :
    Except String (Option (List ParamNullability)) :=
  match tree with
  | .select .. => .ok none
  | .insert table _ columns values _ =>
      (findInsertColumns gt table columns).map fun targetColumns =>
        some (combineParamNullability
          (findParamsFromValues values columns.length) targetColumns)
  | .update _ table _ updates _ _ _ =>
      (findParamNullabilityFromUpdates gt table updates).map some
  | .delete .. => .ok none

/-- applyParamNullability from src/infer.ts: for every parameter index of
the statement, the new nullable flag is whether some collected record for
that index is nullable. -/
def applyParamNullability (stmt : StatementDescription)
    (paramNullability : List ParamNullability) :
    Except String StatementDescription :=
  let nullability := (List.range stmt.params.length).map fun (index : Nat) =>
    (paramNullability.filter fun record =>
        record.index == ((index : Nat) : Int)).any
      fun record => record.nullable
  .ok { stmt with
          params := List.zipWith
            (fun param nullable => { param with nullable := nullable })
            stmt.params nullability }

/-- inferParamNullability from src/infer.ts. -/
def inferParamNullability (gt : GetTable) (statement : StatementDescription)
    (tree : AST) : Except String StatementDescription := do
  match ← getParamNullability gt tree with
  | some paramNullability => applyParamNullability statement paramNullability
  | none => pure statement

/-- isConstantExprOf from src/infer.ts. -/
def isConstantExprOf (expectedValue : String) (expr : Expression) : Bool :=
  match expr with
  | .constant valueText => valueText == expectedValue
  | _ => false

/-- inferRowCount from src/infer.ts: the row-count estimate computed from
the top-level statement shape, written back onto the statement. -/
def inferRowCount (statement : StatementDescription) (astNode : AST) :
    StatementDescription :=
  let rowCount : StatementRowCount :=
    match astNode with
    | .select _ _ _ _ limit =>
        match limit with
        | some l =>
            match l.count with
            | some count =>
                if isConstantExprOf "1" count then .zeroOrOne else .many
            | none => .many
        | none => .many
    | .insert _ _ _ values returning =>
        match values with
        | .defaultValues => .one
        | .exprValues valuesList =>
            if returning.length != 0 then
              if valuesList.length == 1 then .one else .many
            else .zero
    | .update _ _ _ _ _ _ returning =>
        if returning.length != 0 then .many else .zero
    | .delete _ _ _ returning =>
        if returning.length != 0 then .many else .zero
  { statement with rowCount := rowCount }

/-- findNonHiddenSourceColumns from src/infer.ts. -/
def findNonHiddenSourceColumns (sourceColumns : List SourceColumn) :
    Except String (List SourceColumn) :=
  let result := sourceColumns.filter fun col => !col.hidden
  if result.length > 0 then .ok result else .error "No columns"

/-- findNonHiddenSourceTableColumns from src/infer.ts. -/
def findNonHiddenSourceTableColumns (tableName : String)
    (sourceColumns : List SourceColumn) :
    Except String (List SourceColumn) := do
  let nonHidden ← findNonHiddenSourceColumns sourceColumns
  let result := nonHidden.filter fun col => col.tableAlias == tableName
  if result.length > 0 then pure result
  else .error ("No visible columns for table " ++ tableName)

/-- findSourceTableColumn from src/infer.ts. -/
def findSourceTableColumn (tableName : String) (columnName : String)
    (sourceColumns : List SourceColumn) : Except String SourceColumn :=
  match sourceColumns.find? (fun source =>
      source.tableAlias == tableName && source.columnName == columnName) with
  | some source => .ok source
  | none => .error ("Unknown column " ++ tableName ++ "." ++ columnName)

/-- findSourceColumn from src/infer.ts. -/
def findSourceColumn (columnName : String)
    (sourceColumns : List SourceColumn) : Except String SourceColumn :=
  match sourceColumns.find? (fun col => col.columnName == columnName) with
  | some col => .ok col
  | none => .error ("Unknown column " ++ columnName)

/-- setSourceColumnsAsNullable from src/infer.ts. -/
def setSourceColumnsAsNullable (sourceColumns : List SourceColumn) :
    List SourceColumn :=
  sourceColumns.map fun col =>
    { col with nullability := col.nullability.withNullableTrue }

/-- combineSourceColumns from src/infer.ts, at the arity it is used with:
sequence the two results and flatten. -/
def combineSourceColumns (left right : Except String (List SourceColumn)) :
    Except String (List SourceColumn) := do
  pure ((← left) ++ (← right))

/-- getSourceColumnsForTable from src/infer.ts: a table reference without
a schema first tries the CTE scope, otherwise the schema client is
consulted. -/
def getSourceColumnsForTable (gt : GetTable) (ctes : List VirtualTable)
    (table : TableRef) (asName : Option String) :
    Except String (List SourceColumn) :=
  let cteMatch :=
    if table.schema == none then
      ctes.find? fun virtualTable => virtualTable.name == table.table
    else none
  match cteMatch with
  | some result =>
      .ok (result.columns.map fun col =>
        { tableAlias := jsStrOr asName table.table
          columnName := col.name
          nullability := col.nullability
          hidden := false })
  | none =>
      (gt table.schema table.table).map fun dbTable =>
        dbTable.columns.map fun col =>
          { tableAlias := jsStrOr asName dbTable.name
            columnName := col.name
            nullability := .any col.nullable
            hidden := col.hidden }

/-! ## The mutually recursive inference engine of src/infer.ts

The source functions getOutputColumns, getVirtualTablesForWithQueries,
getSourceColumnsForTableExpr, getSourceColumnsForSubQuery,
inferSelectListOutput and inferExpressionNullability recurse into each
other through subqueries and CTE bodies.  So that the mutual recursion
stays structural (and hence computes by kernel reduction), the loop of
getVirtualTablesForWithQueries is the function getVirtualTablesLoop, the
body of inferSelectListOutput and the null check and subquery case of
getSourceColumnsForTableExpr are inlined at their call sites, and the
sequenced map over the select list is the function inferSelectListItems;
the source-named wrappers follow the mutual block and are definitionally
the inlined compositions. -/

mutual

/-- getOutputColumns from src/infer.ts: dispatch on the statement kind.
The select and update branches first resolve the local WITH queries and
extend the outside CTEs (combineVirtualTables), resolve the FROM
sources, and infer the select list (respectively the RETURNING list);
insert and delete use the target table as the sole source.  The select
branch passes the combined CTEs to the select-list inference while the
insert, update and delete branches pass the outside CTEs, exactly as the
source does. -/
def getOutputColumns (gt : GetTable) (outsideCTEs : List VirtualTable)
    (tree : AST) : Except String (List VirtualField) :=
  match tree with
  | .select ctes fromExpr whereExpr selectList _ => do
      let combinedCTEs := outsideCTEs ++ (← getVirtualTablesLoop gt [] ctes)
      let sourceColumns ←
        match fromExpr with
        | none => Except.ok []
        | some tableExpr =>
            getSourceColumnsForTableExprCore gt combinedCTEs tableExpr false
      Except.map List.flatten
        (inferSelectListItems gt combinedCTEs sourceColumns
          (getNonNullExpressionsFromWhere whereExpr) selectList)
  | .insert table asName _ _ returning => do
      let sourceColumns ← getSourceColumnsForTable gt outsideCTEs table asName
      Except.map List.flatten
        (inferSelectListItems gt outsideCTEs sourceColumns
          (getNonNullExpressionsFromWhere none) returning)
  | .update ctes table asName _ fromExpr whereExpr returning => do
      let combinedCTEs := outsideCTEs ++ (← getVirtualTablesLoop gt [] ctes)
      let sourceColumns ← combineSourceColumns
        (match fromExpr with
         | none => Except.ok []
         | some tableExpr =>
             getSourceColumnsForTableExprCore gt combinedCTEs tableExpr false)
        (getSourceColumnsForTable gt combinedCTEs table asName)
      Except.map List.flatten
        (inferSelectListItems gt outsideCTEs sourceColumns
          (getNonNullExpressionsFromWhere whereExpr) returning)
  | .delete table asName whereExpr returning => do
      let sourceColumns ← getSourceColumnsForTable gt outsideCTEs table asName
      Except.map List.flatten
        (inferSelectListItems gt outsideCTEs sourceColumns
          (getNonNullExpressionsFromWhere whereExpr) returning)
termination_by structural tree

/-- The loop of getVirtualTablesForWithQueries from src/infer.ts: each
WITH query is inferred with the virtual tables accumulated from the
previous WITH queries of the same clause (only), and the first failure is
returned as the overall result. -/
def getVirtualTablesLoop (gt : GetTable) (virtualTables : List VirtualTable)
    (withQueries : List WithQuery) : Except String (List VirtualTable) :=
  match withQueries with
  | [] => .ok virtualTables
  | .mk asName query :: rest =>
      match getOutputColumns gt virtualTables query with
      | .error e => .error e
      | .ok columns =>
          getVirtualTablesLoop gt
            (virtualTables ++ [{ name := asName, columns := columns }]) rest
termination_by structural withQueries

/-- getSourceColumnsForTableExpr from src/infer.ts on a present table
expression: the walk over the table-expression tree, with the
setSourceColumnsAsNullable post-processing applied when setNullable is
set.  A RIGHT or FULL join makes the left side columns nullable, a LEFT
or FULL join makes the right side columns nullable.  The subQuery case is
getSourceColumnsForSubQuery inlined. -/
def getSourceColumnsForTableExprCore (gt : GetTable)
    (ctes : List VirtualTable) (tableExpr : TableExpression)
    (setNullable : Bool) : Except String (List SourceColumn) :=
  Except.map
    (fun sourceColumns =>
      if setNullable then setSourceColumnsAsNullable sourceColumns
      else sourceColumns)
    (match tableExpr with
     | .table table asName => getSourceColumnsForTable gt ctes table asName
     | .subQuery query asName =>
         Except.map
           (fun columns => columns.map fun column =>
             { tableAlias := asName
               columnName := column.name
               nullability := column.nullability
               hidden := false })
           (getOutputColumns gt ctes query)
     | .crossJoin left right =>
         combineSourceColumns
           (getSourceColumnsForTableExprCore gt ctes left false)
           (getSourceColumnsForTableExprCore gt ctes right false)
     | .qualifiedJoin left joinType right =>
         combineSourceColumns
           (getSourceColumnsForTableExprCore gt ctes left
             (joinType == .RIGHT || joinType == .FULL))
           (getSourceColumnsForTableExprCore gt ctes right
             (joinType == .LEFT || joinType == .FULL)))
termination_by structural tableExpr

/-- The sequenced map of inferSelectListItemOutput over the select list
(selectList.map followed by sequenceATE in src/infer.ts): left to right,
first error wins. -/
def inferSelectListItems (gt : GetTable) (outsideCTEs : List VirtualTable)
    (sourceColumns : List SourceColumn)
    (nonNullExpressions : List Expression)
    (selectList : List SelectListItem) :
    Except String (List (List VirtualField)) :=
  match selectList with
  | [] => .ok []
  | item :: rest => do
      let fields ←
        inferSelectListItemOutput gt outsideCTEs sourceColumns
          nonNullExpressions item
      let restFields ←
        inferSelectListItems gt outsideCTEs sourceColumns
          nonNullExpressions rest
      pure (fields :: restFields)
termination_by structural selectList

/-- inferSelectListItemOutput from src/infer.ts: a star item emits every
non-hidden source column, a table star item every non-hidden source
column of that table (both after WHERE-based refinement), and an
expression item emits one virtual field named by its alias or the
AST-derived name. -/
def inferSelectListItemOutput (gt : GetTable)
    (outsideCTEs : List VirtualTable) (sourceColumns : List SourceColumn)
    (nonNullExpressions : List Expression)
    (selectListItem : SelectListItem) : Except String (List VirtualField) :=
  match selectListItem with
  | .allFields =>
      Except.map
        (fun columns =>
          (applyExpressionNonNullability nonNullExpressions columns).map
            fun column =>
              { name := column.columnName
                nullability := column.nullability })
        (findNonHiddenSourceColumns sourceColumns)
  | .allTableFields tableName =>
      Except.map
        (fun columns =>
          (applyExpressionNonNullability nonNullExpressions columns).map
            fun column =>
              { name := column.columnName
                nullability := column.nullability })
        (findNonHiddenSourceTableColumns tableName sourceColumns)
  | .selectListExpression expression asName =>
      Except.map
        (fun exprNullability =>
          [virtualField (jsStrOr asName (inferExpressionName expression))
            exprNullability])
        (inferExpressionNullability gt outsideCTEs sourceColumns
          nonNullExpressions expression)
termination_by structural selectListItem

/-- inferExpressionNullability from src/infer.ts: an expression equal to
a collected non-null expression is non-nullable outright; otherwise
dispatch on the expression kind with the operator and function
null-safety categories. -/
def inferExpressionNullability (gt : GetTable)
    (outsideCTEs : List VirtualTable) (sourceColumns : List SourceColumn)
    (nonNullExprs : List Expression) (expression : Expression) :
    Except String FieldNullability :=
  if nonNullExprs.any (fun nonNull => Expression.equals expression nonNull) then
    .ok (.any false)
  else
    match expression with
    | .tableColumnRef table column =>
        Except.map (fun column => column.nullability)
          (findSourceTableColumn table column sourceColumns)
    | .columnRef column =>
        Except.map (fun column => column.nullability)
          (findSourceColumn column sourceColumns)
    | .unaryOp op operand =>
        (match operatorNullSafety op with
         | .safe =>
             inferExpressionNullability gt outsideCTEs sourceColumns
               nonNullExprs operand
         | .notSafe => .ok (.any true)
         | .alwaysNull => .ok (.any true)
         | .neverNull => .ok (.any false))
    | .binaryOp op lhs rhs =>
        (match operatorNullSafety op with
         | .safe => do
             let lhsNullability ←
               inferExpressionNullability gt outsideCTEs sourceColumns
                 nonNullExprs lhs
             let rhsNullability ←
               inferExpressionNullability gt outsideCTEs sourceColumns
                 nonNullExprs rhs
             pure (.any (lhsNullability.nullable || rhsNullability.nullable))
         | .notSafe => .ok (.any true)
         | .alwaysNull => .ok (.any true)
         | .neverNull => .ok (.any false))
    | .existsOp _ => .ok (.any false)
    | .functionCall funcName argList =>
        (match functionNullSafety funcName with
         | .safe => do
             let argNullability ←
               inferExpressionListNullability gt outsideCTEs sourceColumns
                 nonNullExprs argList
             pure (.any (argNullability.any fun nullability =>
               nullability.nullable))
         | .notSafe => .ok (.any true)
         | .alwaysNull => .ok (.any true)
         | .neverNull => .ok (.any false))
    | .inOp lhs _ =>
        inferExpressionNullability gt outsideCTEs sourceColumns nonNullExprs
          lhs
    | .arraySubQuery subquery => do
        let columns ← getOutputColumns gt outsideCTEs subquery
        match columns with
        | [col] => pure (.array false col.nullability.nullable)
        | _ => .error "subquery must return only one column"
    | .typeCast lhs =>
        inferExpressionNullability gt outsideCTEs sourceColumns nonNullExprs
          lhs
    | .constant _ => .ok (.any false)
    | .parameter _ => .ok (.any true)
termination_by structural expression

/-- The sequenced map of inferExpressionNullability over a function-call
argument list (argList.map followed by sequenceATE in src/infer.ts). -/
def inferExpressionListNullability (gt : GetTable)
    (outsideCTEs : List VirtualTable) (sourceColumns : List SourceColumn)
    (nonNullExprs : List Expression) (argList : List Expression) :
    Except String (List FieldNullability) :=
  match argList with
  | [] => .ok []
  | arg :: rest => do
      let argNullability ←
        inferExpressionNullability gt outsideCTEs sourceColumns nonNullExprs
          arg
      let restNullability ←
        inferExpressionListNullability gt outsideCTEs sourceColumns
          nonNullExprs rest
      pure (argNullability :: restNullability)
termination_by structural argList

end

/-! ## Source-named wrappers around the mutual block -/

/-- getVirtualTablesForWithQueries from src/infer.ts: run the sequential
resolution loop starting from an empty list of virtual tables. -/
def getVirtualTablesForWithQueries (gt : GetTable)
    (withQueries : List WithQuery) : Except String (List VirtualTable) :=
  getVirtualTablesLoop gt [] withQueries

/-- combineVirtualTables from src/infer.ts. -/
def combineVirtualTables (outsideCTEs : List VirtualTable)
    (ctes : Except String (List VirtualTable)) :
    Except String (List VirtualTable) :=
  Except.map (fun virtualTables => outsideCTEs ++ virtualTables) ctes

/-- getSourceColumnsForTableExpr from src/infer.ts: a missing table
expression contributes no source columns. -/
def getSourceColumnsForTableExpr (gt : GetTable) (ctes : List VirtualTable)
    (tableExpr : Option TableExpression) (setNullable : Bool) :
    Except String (List SourceColumn) :=
  match tableExpr with
  | none => .ok []
  | some tableExpr => getSourceColumnsForTableExprCore gt ctes tableExpr
      setNullable

/-- getSourceColumnsForSubQuery from src/infer.ts. -/
def getSourceColumnsForSubQuery (gt : GetTable)
    (outsideCTEs : List VirtualTable) (subquery : AST) (asName : String) :
    Except String (List SourceColumn) :=
  Except.map
    (fun columns => columns.map fun column =>
      { tableAlias := asName
        columnName := column.name
        nullability := column.nullability
        hidden := false })
    (getOutputColumns gt outsideCTEs subquery)

/-- inferSelectListOutput from src/infer.ts: derive the non-null
expressions from the WHERE clause, infer every select list item and
flatten the results in order. -/
def inferSelectListOutput (gt : GetTable) (outsideCTEs : List VirtualTable)
    (sourceColumns : List SourceColumn) (whereExpr : Option Expression)
    (selectList : List SelectListItem) :
    Except String (List VirtualField) :=
  Except.map List.flatten
    (inferSelectListItems gt outsideCTEs sourceColumns
      (getNonNullExpressionsFromWhere whereExpr) selectList)

/-- inferColumnNullability from src/infer.ts. -/
def inferColumnNullability (gt : GetTable)
    (statement : StatementDescription) (tree : AST) :
    Except String StatementDescription := do
  applyColumnNullability statement (← getOutputColumns gt [] tree)

/-- inferStatementNullability from src/infer.ts.  The SQL parser is not
part of the sources and is passed in as parseFn.  The orElse at the end
of the source pipeline replaces any failure of the whole
parse-and-inference chain (after printing a parser warning) by the
unmodified input statement. -/
def inferStatementNullability (parseFn : String → Except String AST)
    (gt : GetTable) (statement : StatementDescription) :
    Except String StatementDescription :=
  let chained : Except String StatementDescription := do
    let astNode ← parseFn statement.sql
    let stmt ← inferColumnNullability gt statement astNode
    let stmt ← inferParamNullability gt stmt astNode
    pure (inferRowCount stmt astNode)
  match chained with
  | .error _ => .ok statement
  | .ok stmt => .ok stmt

/-! ## Definitions written from the words of the spec, for the
refinement claims that compare source behaviour against the spec text -/

/-- Modelled from the spec, section 4.2.1 (written from the words of the
spec, to be compared with getNonNullExpressionsFromWhereExpr): A AND B
recurses into both conjuncts, IS NOT NULL and NOTNULL of E yield E, a
NULL-safe binary operator yields its two operands, a NULL-safe function
call yields its arguments, and any other node yields the empty list. -/
def nonNullRecursionSpec : Expression → List Expression
  | .binaryOp op lhs rhs =>
      if op = "AND" then nonNullRecursionSpec lhs ++ nonNullRecursionSpec rhs
      else if operatorNullSafety op = .safe then [lhs, rhs]
      else []
  | .unaryOp op operand =>
      if op = "IS NOT NULL" ∨ op = "NOTNULL" then [operand] else []
  | .functionCall funcName argList =>
      if functionNullSafety funcName = .safe then argList else []
  | _ => []
termination_by structural e => e

/-- Modelled from the spec, section 4.4 (written from the words of the
spec, to be compared with inferRowCount): SELECT with a LIMIT whose count
is the constant 1 gives zeroOrOne and otherwise many; INSERT with
DEFAULT VALUES gives one, without RETURNING zero, with RETURNING one for
a single VALUES tuple and many for several; UPDATE and DELETE give many
with RETURNING and zero without. -/
def rowCountSpec : AST → StatementRowCount
  | .select _ _ _ _ limit =>
      match limit with
      | some lim =>
          match lim.count with
          | some count =>
              (match count with
               | .constant "1" => .zeroOrOne
               | _ => .many)
          | none => .many
      | none => .many
  | .insert _ _ _ values returning =>
      match values with
      | .defaultValues => .one
      | .exprValues valuesList =>
          if returning.isEmpty then .zero
          else if valuesList.length = 1 then .one
          else .many
  | .update _ _ _ _ _ _ returning =>
      if returning.isEmpty then .zero else .many
  | .delete _ _ _ returning =>
      if returning.isEmpty then .zero else .many

/-! ## Concrete fixtures used by counterexamples and witnesses -/

/-- The person table of the test suite and of section 8 of the spec:
id and name NOT NULL, age nullable. -/
def personTable : Table :=
  { schema := "public"
    name := "person"
    columns :=
      [ { name := "id", type := .any 23, nullable := false, hidden := false },
        { name := "name", type := .any 1043, nullable := false,
          hidden := false },
        { name := "age", type := .any 23, nullable := true,
          hidden := false } ] }

/-- A schema client that knows only the person table. -/
def gtPerson : GetTable := fun _ tableName =>
  if tableName == "person" then .ok personTable
  else .error ("No such table " ++ tableName)

/-- A schema client with no tables at all. -/
def gtEmpty : GetTable := fun _ tableName =>
  .error ("No such table " ++ tableName)

/-- The AST of UPDATE person SET name = $1 WHERE id = $2. -/
def updatePersonAst : AST :=
  .update [] { schema := none, table := "person" } none
    [.mk "name" (some (.parameter 1))] none
    (some (.binaryOp "=" (.columnRef "id") (.parameter 2))) []

/-- The driver-probed description of UPDATE person SET name = $1
WHERE id = $2: both parameters probed as nullable. -/
def updatePersonStmt : StatementDescription :=
  { sql := "UPDATE person SET name = $1 WHERE id = $2"
    columns := []
    params :=
      [ { oid := 1043, nullable := true }, { oid := 23, nullable := true } ]
    rowCount := .many }

/-- The AST of SELECT 1 (a single constant select-list expression, no
FROM clause). -/
def constSelectAst : AST :=
  .select [] none none [.selectListExpression (.constant "1") none] none

/-- A probed description with no columns at all; inferring constSelectAst
against it violates invariant 1. -/
def emptyColumnsStmt : StatementDescription :=
  { sql := "SELECT 1", columns := [], params := [], rowCount := .many }

/-- An outer CTE named o with a single non-nullable column x. -/
def outerCteTable : VirtualTable :=
  { name := "o", columns := [{ name := "x", nullability := .any false }] }

/-- The body of a WITH query that selects everything from o. -/
def selectFromOuterAst : AST :=
  .select [] (some (.table { schema := none, table := "o" } none)) none
    [.allFields] none

/-- WITH c AS (SELECT * FROM o) SELECT * FROM c, where o is only
available as an outer CTE. -/
def withInnerCteAst : AST :=
  .select [.mk "c" selectFromOuterAst]
    (some (.table { schema := none, table := "c" } none)) none
    [.allFields] none

/-- CTE scope with two single-column virtual tables t1 and t2, used to
exercise joins without a schema client. -/
def joinCtes : List VirtualTable :=
  [ { name := "t1", columns := [{ name := "a", nullability := .any false }] },
    { name := "t2",
      columns := [{ name := "b", nullability := .array false false }] } ]

/-- The left side of the exercised joins: the virtual table t1. -/
def joinLeftExpr : TableExpression :=
  .table { schema := none, table := "t1" } none

/-- The right side of the exercised joins: the virtual table t2. -/
def joinRightExpr : TableExpression :=
  .table { schema := none, table := "t2" } none

/-- A probed description whose second column name contains a
comma-and-space, so that two different name lists join to the same
string. -/
def commaNameStmt : StatementDescription :=
  { sql := "q"
    columns :=
      [ { name := "a", type := .any 1, nullable := true },
        { name := "b, c", type := .any 2, nullable := true } ]
    params := []
    rowCount := .many }

/-- Inferred output whose names differ element-wise from commaNameStmt
but join to the same comma-separated string. -/
def commaNameOutput : List VirtualField :=
  [ { name := "a, b", nullability := .any false },
    { name := "c", nullability := .any false } ]

/-! ## Theorems -/

theorem except_map_ok {a b : Type} (f : a → b) (x : a) :
    Except.map f (Except.ok x : Except String a) = .ok (f x) := rfl

theorem except_map_error {a b : Type} (f : a → b) (e : String) :
    Except.map f (Except.error e : Except String a) = .error e := rfl

theorem except_bind_ok {a b : Type} (x : a) (f : a → Except String b) :
    (Except.ok x >>= f) = f x := rfl

theorem except_bind_error {a b : Type} (e : String)
    (f : a → Except String b) :
    ((Except.error e : Except String a) >>= f) = .error e := rfl

/-- C10: for any statement and AST, the row-count pass leaves the sql,
columns and params fields of the description unchanged; only rowCount is
rewritten. -/
theorem c10_inferRowCount_frame (statement : StatementDescription)
    (astNode : AST) :
    (inferRowCount statement astNode).sql = statement.sql ∧
    (inferRowCount statement astNode).columns = statement.columns ∧
    (inferRowCount statement astNode).params = statement.params :=
  ⟨rfl, rfl, rfl⟩

/-- C7: the row count assigned by the pass agrees, for every statement
shape, with the table of section 4.4 of the spec: SELECT gives zeroOrOne
exactly for a LIMIT count that is the constant 1 and many otherwise;
INSERT gives one for DEFAULT VALUES, zero without RETURNING, and with
RETURNING one or many according to the number of VALUES tuples; UPDATE
and DELETE give many with RETURNING and zero without. -/
theorem c7_inferRowCount_spec (statement : StatementDescription)
    (astNode : AST) :
    (inferRowCount statement astNode).rowCount = rowCountSpec astNode := by
  cases astNode with
  | select ctes fromExpr whereExpr selectList limit =>
      cases limit with
      | none => rfl
      | some lim =>
          obtain ⟨count, offset⟩ := lim
          cases count with
          | none => rfl
          | some c =>
              cases c with
              | constant t =>
                  by_cases h : t = "1"
                  · subst h; rfl
                  · simp [inferRowCount, rowCountSpec, isConstantExprOf,
                      Limit.count, h]
              | _ => rfl
  | insert table asName columns values returning =>
      cases values with
      | defaultValues => rfl
      | exprValues valuesList =>
          cases returning with
          | nil => rfl
          | cons r rs =>
              by_cases h : valuesList.length = 1
              · simp [inferRowCount, rowCountSpec, h]
              · simp [inferRowCount, rowCountSpec, h]
  | update ctes table asName updates fromExpr whereExpr returning =>
      cases returning with
      | nil => rfl
      | cons r rs => rfl
  | delete table asName whereExpr returning =>
      cases returning with
      | nil => rfl
      | cons r rs => rfl

/-- C8: the invariant-1 name validation compares the joined strings, so
the two-element lists ["a, b", "c"] and ["a", "b, c"], which differ
element-wise, pass the validation and the statement is enriched. -/
theorem c8_joined_names_collide :
    applyColumnNullability commaNameStmt commaNameOutput =
      .ok { commaNameStmt with
              columns :=
                [ { name := "a", type := .any 1, nullable := false },
                  { name := "b, c", type := .any 2, nullable := false } ] } ∧
    commaNameOutput.map (fun c => c.name) ≠
      commaNameStmt.columns.map (fun c => c.name) ∧
    commaNameOutput.length = commaNameStmt.columns.length :=
  ⟨rfl, by decide, rfl⟩

/-- C2, behaviour at the failing input: a qualified non-null reference
t.a forces the source column (t, b) to non-nullable although the column
names differ, because the source compares a record that carries a table
name by table alias alone; an unqualified reference still matches by
column name as the claim states. -/
theorem c2_qualified_ref_ignores_column_name :
    isColumnNonNullable [{ tableName := some "t", columnName := "a" }]
      { tableAlias := "t", columnName := "b", nullability := .any true,
        hidden := false } = true ∧
    applyExpressionNonNullability [.tableColumnRef "t" "a"]
      [{ tableAlias := "t", columnName := "b", nullability := .any true,
         hidden := false }] =
      [{ tableAlias := "t", columnName := "b", nullability := .any false,
         hidden := false }] ∧
    isColumnNonNullable [{ tableName := none, columnName := "a" }]
      { tableAlias := "anyAlias", columnName := "a",
        nullability := .any true, hidden := false } = true :=
  ⟨rfl, rfl, rfl⟩

theorem nonNull_core_eq_spec : (e : Expression) →
    getNonNullExpressionsFromWhereExpr e = nonNullRecursionSpec e
  | .binaryOp op lhs rhs => by
      by_cases h : op = "AND"
      · subst h
        simp [getNonNullExpressionsFromWhereExpr, nonNullRecursionSpec,
          nonNull_core_eq_spec lhs, nonNull_core_eq_spec rhs]
      · simp [getNonNullExpressionsFromWhereExpr, nonNullRecursionSpec, h]
  | .unaryOp op operand => by
      simp [getNonNullExpressionsFromWhereExpr, nonNullRecursionSpec]
  | .functionCall funcName argList => by
      simp [getNonNullExpressionsFromWhereExpr, nonNullRecursionSpec]
  | .columnRef _ => rfl
  | .tableColumnRef _ _ => rfl
  | .constant _ => rfl
  | .parameter _ => rfl
  | .existsOp _ => rfl
  | .inOp _ _ => rfl
  | .arraySubQuery _ => rfl
  | .typeCast _ => rfl
termination_by structural e => e

/-- C6: the non-null expressions collected from a WHERE clause are
exactly the recursion of section 4.2.1 of the spec: AND recurses into
both conjuncts, IS NOT NULL and NOTNULL yield the operand, a NULL-safe
binary operator yields both operands, a NULL-safe function call yields
its arguments, and every other node, OR and NOT included, yields
nothing. -/
theorem c6_nonnull_where_collection :
    getNonNullExpressionsFromWhere none = [] ∧
    ∀ whereExpr : Expression,
      getNonNullExpressionsFromWhere (some whereExpr) =
        nonNullRecursionSpec whereExpr :=
  ⟨rfl, fun whereExpr => nonNull_core_eq_spec whereExpr⟩

/-- C1, counterexample: for UPDATE person SET name = $1 WHERE id = $2 the
only binding record is for index 0, the input has the parameter at index
1 probed nullable, yet the pass rewrites it to non-nullable instead of
leaving it as probed. -/
theorem c1_counterexample :
    inferParamNullability gtPerson updatePersonStmt updatePersonAst =
      .ok { updatePersonStmt with
              params := [ { oid := 1043, nullable := false },
                          { oid := 23, nullable := false } ] } ∧
    getParamNullability gtPerson updatePersonAst =
      .ok (some [{ index := 0, nullable := false }]) ∧
    updatePersonStmt.params.get? 1 = some { oid := 23, nullable := true } :=
  ⟨rfl, rfl, rfl⟩

/-- C1, amended: applying the collected binding records rewrites every
parameter index of the statement, setting index i nullable exactly when
some record for i says nullable; an index with no record is therefore
set to non-nullable, its driver-probed nullability is not kept. -/
theorem c1_param_nullability (stmt : StatementDescription)
    (paramNullability : List ParamNullability) (i : Nat)
    (p : ParamDescription) (hp : stmt.params.get? i = some p) :
    ∃ stmt', applyParamNullability stmt paramNullability = .ok stmt' ∧
      stmt'.params.length = stmt.params.length ∧
      stmt'.params.get? i =
        some { p with
                 nullable :=
                   (paramNullability.filter fun record =>
                       record.index == (i : Int)).any
                     fun record => record.nullable } := by
  refine ⟨_, rfl, ?_, ?_⟩
  · simp [applyParamNullability, List.length_zipWith]
  · have hi : i < stmt.params.length := by
      by_contra hn
      push_neg at hn
      rw [List.get?_eq_none.mpr hn] at hp
      cases hp
    simp only [applyParamNullability]
    rw [List.get?_zipWith', hp, List.get?_map, List.get?_range hi]
    simp

/-- Witness for the amended C1 theorem at the UPDATE scenario. -/
theorem c1_param_nullability_witness :
    updatePersonStmt.params.get? 1 = some { oid := 23, nullable := true } ∧
    ∃ stmt',
      applyParamNullability updatePersonStmt
        [{ index := 0, nullable := false }] = .ok stmt' ∧
      stmt'.params.length = updatePersonStmt.params.length ∧
      stmt'.params.get? 1 =
        some { oid := 23,
               nullable :=
                 (([{ index := 0, nullable := false }] :
                     List ParamNullability).filter fun record =>
                     record.index == (1 : Int)).any
                   fun record => record.nullable } :=
  ⟨rfl,
    c1_param_nullability updatePersonStmt [{ index := 0, nullable := false }]
      1 { oid := 23, nullable := true } rfl⟩

theorem inferStatementNullability_eq (parseFn : String → Except String AST)
    (gt : GetTable) (statement : StatementDescription) :
    inferStatementNullability parseFn gt statement =
      (match parseFn statement.sql >>= (fun astNode =>
          inferColumnNullability gt statement astNode >>= fun stmt =>
          inferParamNullability gt stmt astNode >>= fun stmt =>
          pure (inferRowCount stmt astNode)) with
       | .error _ => .ok statement
       | .ok stmt => .ok stmt : Except String StatementDescription) := rfl

theorem match_recover_ok (r : Except String StatementDescription)
    (s : StatementDescription) :
    ∃ out, (match r with
            | .error _ => .ok s
            | .ok stmt => .ok stmt : Except String StatementDescription) =
      .ok out := by
  cases r with
  | error e => exact ⟨s, rfl⟩
  | ok stmt => exact ⟨stmt, rfl⟩

/-- C3, counterexample: inferring SELECT 1 against a probed description
with zero columns is an invariant-1 structural mismatch (the column
pass fails with the BUG error), yet the entry point returns Ok with the
unmodified raw statement instead of Err, because its final orElse
recovers every failure of the chain. -/
theorem c3_counterexample :
    inferColumnNullability gtEmpty emptyColumnsStmt constSelectAst =
      .error "BUG: Non-equal number of columns: inferred 1, actual 0" ∧
    inferStatementNullability (fun _ => .ok constSelectAst) gtEmpty
      emptyColumnsStmt = .ok emptyColumnsStmt :=
  ⟨rfl, rfl⟩

/-- C3, amended: the entry point never returns Err: it returns Ok of the
enriched statement on success and Ok of the unmodified raw statement on
any failure of the parse-and-inference chain, parser failures and
invariant-1 structural mismatches alike. -/
theorem c3_all_errors_recovered (parseFn : String → Except String AST)
    (gt : GetTable) (statement : StatementDescription) :
    (∃ out, inferStatementNullability parseFn gt statement = .ok out) ∧
    (∀ e, parseFn statement.sql = .error e →
      inferStatementNullability parseFn gt statement = .ok statement) ∧
    (∀ tree e, parseFn statement.sql = .ok tree →
      inferColumnNullability gt statement tree = .error e →
      inferStatementNullability parseFn gt statement = .ok statement) := by
  refine ⟨?_, ?_, ?_⟩
  · rw [inferStatementNullability_eq]
    exact match_recover_ok _ _
  · intro e he
    simp only [inferStatementNullability_eq, he, except_bind_error]
  · intro tree e hp hc
    simp only [inferStatementNullability_eq, hp, except_bind_ok, hc,
      except_bind_error]

/-- Witness for the amended C3 theorem: a failing parser yields Ok of
the unmodified statement. -/
theorem c3_all_errors_recovered_witness :
    ((fun _ => (.error "parse failure" : Except String AST))
        emptyColumnsStmt.sql = .error "parse failure") ∧
    inferStatementNullability (fun _ => .error "parse failure") gtEmpty
      emptyColumnsStmt = .ok emptyColumnsStmt :=
  ⟨rfl,
    (c3_all_errors_recovered (fun _ => .error "parse failure") gtEmpty
        emptyColumnsStmt).2.1 "parse failure" rfl⟩

theorem allFields_error_no_columns (gt : GetTable)
    (outsideCTEs : List VirtualTable) (sourceColumns : List SourceColumn)
    (nonNullExpressions : List Expression)
    (h : sourceColumns.filter (fun col => !col.hidden) = []) :
    inferSelectListItemOutput gt outsideCTEs sourceColumns
      nonNullExpressions .allFields = .error "No columns" := by
  simp [inferSelectListItemOutput, findNonHiddenSourceColumns, h,
    except_map_error]

set_option maxHeartbeats 1600000 in
/-- C9: a star select-list item errors with "No columns" when the scope
has no non-hidden source column, so SELECT * without a FROM clause makes
column inference fail rather than produce an empty output list; a table
star item likewise errors when no visible source column carries the
named table alias. -/
theorem c9_star_errors_on_empty_scope :
    (∀ (gt : GetTable) (outsideCTEs : List VirtualTable)
        (sourceColumns : List SourceColumn)
        (nonNullExpressions : List Expression),
      sourceColumns.filter (fun col => !col.hidden) = [] →
      inferSelectListItemOutput gt outsideCTEs sourceColumns
        nonNullExpressions .allFields = .error "No columns") ∧
    (∀ (gt : GetTable) (outsideCTEs : List VirtualTable)
        (whereExpr : Option Expression) (limit : Option Limit),
      getOutputColumns gt outsideCTEs
        (.select [] none whereExpr [.allFields] limit) =
        .error "No columns") ∧
    (∀ (gt : GetTable) (outsideCTEs : List VirtualTable)
        (sourceColumns : List SourceColumn)
        (nonNullExpressions : List Expression) (tableName : String),
      sourceColumns.filter
          (fun col => !col.hidden && col.tableAlias == tableName) = [] →
      ∃ e, inferSelectListItemOutput gt outsideCTEs sourceColumns
        nonNullExpressions (.allTableFields tableName) = .error e) := by
  refine ⟨allFields_error_no_columns, ?_, ?_⟩
  · intro gt outsideCTEs whereExpr limit
    simp [getOutputColumns, getVirtualTablesLoop, inferSelectListItems,
      allFields_error_no_columns, except_bind_ok, except_bind_error,
      except_map_error]
  · intro gt outsideCTEs sourceColumns nonNullExpressions tableName h
    by_cases h0 : sourceColumns.filter (fun col => !col.hidden) = []
    · refine ⟨"No columns", ?_⟩
      simp [inferSelectListItemOutput, findNonHiddenSourceTableColumns,
        findNonHiddenSourceColumns, h0, except_bind_error, except_map_error]
    · refine ⟨"No visible columns for table " ++ tableName, ?_⟩
      have hf : (sourceColumns.filter fun col => !col.hidden).filter
          (fun col => col.tableAlias == tableName) = [] := by
        rw [List.filter_eq_nil]

        intro a ha hal
        have hmem := List.mem_filter.mp ha
        have := List.filter_eq_nil.mp h a hmem.1
        simp [hmem.2, hal] at this
      have hok : findNonHiddenSourceColumns sourceColumns =
          .ok (sourceColumns.filter fun col => !col.hidden) := by
        simp [findNonHiddenSourceColumns, List.length_pos.mpr h0]
      simp [inferSelectListItemOutput, findNonHiddenSourceTableColumns, hok,
        except_bind_ok, hf, except_map_error]

/-- Witness for the C9 theorem at concrete inputs: an empty scope for a
star item and for SELECT * with no FROM clause, and a scope with only a
hidden column of another table for a table star item. -/
theorem c9_star_errors_on_empty_scope_witness :
    (([] : List SourceColumn).filter (fun col => !col.hidden) = []) ∧
    inferSelectListItemOutput gtEmpty [] [] [] .allFields =
      .error "No columns" ∧
    getOutputColumns gtEmpty [] (.select [] none none [.allFields] none) =
      .error "No columns" ∧
    (([{ tableAlias := "t", columnName := "a", nullability := .any false,
          hidden := true }] : List SourceColumn).filter
        (fun col => !col.hidden && col.tableAlias == "u") = []) ∧
    (∃ e, inferSelectListItemOutput gtEmpty []
        [{ tableAlias := "t", columnName := "a", nullability := .any false,
           hidden := true }] [] (.allTableFields "u") = .error e) :=
  ⟨rfl, c9_star_errors_on_empty_scope.1 gtEmpty [] [] [] rfl,
    c9_star_errors_on_empty_scope.2.1 gtEmpty [] none none, rfl,
    c9_star_errors_on_empty_scope.2.2 gtEmpty []
      [{ tableAlias := "t", columnName := "a", nullability := .any false,
         hidden := true }] [] "u" rfl⟩

theorem core_qualifiedJoin (gt : GetTable) (ctes : List VirtualTable)
    (left : TableExpression) (joinType : JoinType)
    (right : TableExpression) (setNullable : Bool) :
    getSourceColumnsForTableExprCore gt ctes
        (.qualifiedJoin left joinType right) setNullable =
      Except.map
        (fun sourceColumns =>
          if setNullable then setSourceColumnsAsNullable sourceColumns
          else sourceColumns)
        (combineSourceColumns
          (getSourceColumnsForTableExprCore gt ctes left
            (joinType == .RIGHT || joinType == .FULL))
          (getSourceColumnsForTableExprCore gt ctes right
            (joinType == .LEFT || joinType == .FULL))) := by
  rw [getSourceColumnsForTableExprCore]

theorem core_crossJoin (gt : GetTable) (ctes : List VirtualTable)
    (left right : TableExpression) (setNullable : Bool) :
    getSourceColumnsForTableExprCore gt ctes (.crossJoin left right)
        setNullable =
      Except.map
        (fun sourceColumns =>
          if setNullable then setSourceColumnsAsNullable sourceColumns
          else sourceColumns)
        (combineSourceColumns
          (getSourceColumnsForTableExprCore gt ctes left false)
          (getSourceColumnsForTableExprCore gt ctes right false)) := by
  rw [getSourceColumnsForTableExprCore]

theorem core_table (gt : GetTable) (ctes : List VirtualTable)
    (table : TableRef) (asName : Option String) (setNullable : Bool) :
    getSourceColumnsForTableExprCore gt ctes (.table table asName)
        setNullable =
      Except.map
        (fun sourceColumns =>
          if setNullable then setSourceColumnsAsNullable sourceColumns
          else sourceColumns)
        (getSourceColumnsForTable gt ctes table asName) := by
  rw [getSourceColumnsForTableExprCore]

theorem core_subQuery (gt : GetTable) (ctes : List VirtualTable)
    (query : AST) (asName : String) (setNullable : Bool) :
    getSourceColumnsForTableExprCore gt ctes (.subQuery query asName)
        setNullable =
      Except.map
        (fun sourceColumns =>
          if setNullable then setSourceColumnsAsNullable sourceColumns
          else sourceColumns)
        (Except.map
          (fun columns => columns.map fun column =>
            { tableAlias := asName
              columnName := column.name
              nullability := column.nullability
              hidden := false })
          (getOutputColumns gt ctes query)) := by
  rw [getSourceColumnsForTableExprCore]

theorem core_setNullable_true (gt : GetTable) (ctes : List VirtualTable)
    (tableExpr : TableExpression) :
    getSourceColumnsForTableExprCore gt ctes tableExpr true =
      Except.map setSourceColumnsAsNullable
        (getSourceColumnsForTableExprCore gt ctes tableExpr false) := by
  cases tableExpr with
  | table table asName =>
      rw [core_table, core_table]
      generalize getSourceColumnsForTable gt ctes table asName = m
      cases m <;> rfl
  | subQuery query asName =>
      rw [core_subQuery, core_subQuery]
      generalize getOutputColumns gt ctes query = m
      cases m <;> rfl
  | crossJoin left right =>
      rw [core_crossJoin, core_crossJoin]
      generalize combineSourceColumns
        (getSourceColumnsForTableExprCore gt ctes left false)
        (getSourceColumnsForTableExprCore gt ctes right false) = m
      cases m <;> rfl
  | qualifiedJoin left joinType right =>
      rw [core_qualifiedJoin, core_qualifiedJoin]
      generalize combineSourceColumns
        (getSourceColumnsForTableExprCore gt ctes left
          (joinType == .RIGHT || joinType == .FULL))
        (getSourceColumnsForTableExprCore gt ctes right
          (joinType == .LEFT || joinType == .FULL)) = m
      cases m <;> rfl

/-- C5: for a qualified join whose sides resolve to L and R, the
resulting source columns are L ++ R with the left side forced nullable
for RIGHT and FULL joins and the right side forced nullable for LEFT and
FULL joins (so an INNER join changes neither side), a cross join yields
L ++ R unchanged, and the forcing only rewrites the outer nullable flag:
the element nullability of an array column is untouched. -/
theorem c5_join_nullability (gt : GetTable) (ctes : List VirtualTable)
    (left right : TableExpression) (joinType : JoinType)
    (L R : List SourceColumn)
    (hl : getSourceColumnsForTableExpr gt ctes (some left) false = .ok L)
    (hr : getSourceColumnsForTableExpr gt ctes (some right) false = .ok R) :
    getSourceColumnsForTableExpr gt ctes
        (some (.qualifiedJoin left joinType right)) false =
      .ok ((if joinType = .RIGHT ∨ joinType = .FULL then
              setSourceColumnsAsNullable L else L) ++
           (if joinType = .LEFT ∨ joinType = .FULL then
              setSourceColumnsAsNullable R else R)) ∧
    getSourceColumnsForTableExpr gt ctes (some (.crossJoin left right))
        false = .ok (L ++ R) ∧
    (∀ col : SourceColumn,
      setSourceColumnsAsNullable [col] =
        [{ col with nullability := col.nullability.withNullableTrue }] ∧
      (col.nullability.withNullableTrue).nullable = true ∧
      (col.nullability.withNullableTrue).elemNullable? =
        col.nullability.elemNullable?) := by
  have hl' : getSourceColumnsForTableExprCore gt ctes left false = .ok L := hl
  have hr' : getSourceColumnsForTableExprCore gt ctes right false = .ok R :=
    hr
  refine ⟨?_, ?_, ?_⟩
  · cases joinType <;>
      simp [getSourceColumnsForTableExpr, core_qualifiedJoin,
        core_setNullable_true, hl', hr', combineSourceColumns,
        except_bind_ok, except_map_ok,
        show (JoinType.INNER == JoinType.RIGHT) = false from rfl,
        show (JoinType.INNER == JoinType.FULL) = false from rfl,
        show (JoinType.INNER == JoinType.LEFT) = false from rfl,
        show (JoinType.LEFT == JoinType.RIGHT) = false from rfl,
        show (JoinType.LEFT == JoinType.FULL) = false from rfl,
        show (JoinType.LEFT == JoinType.LEFT) = true from rfl,
        show (JoinType.RIGHT == JoinType.RIGHT) = true from rfl,
        show (JoinType.RIGHT == JoinType.LEFT) = false from rfl,
        show (JoinType.RIGHT == JoinType.FULL) = false from rfl,
        show (JoinType.FULL == JoinType.RIGHT) = false from rfl,
        show (JoinType.FULL == JoinType.LEFT) = false from rfl,
        show (JoinType.FULL == JoinType.FULL) = true from rfl]
  · simp [getSourceColumnsForTableExpr, core_crossJoin, hl', hr',
      combineSourceColumns, except_bind_ok, except_map_ok]
  · intro col
    refine ⟨rfl, ?_, ?_⟩ <;>
      cases h : col.nullability <;>
        simp [FieldNullability.withNullableTrue, FieldNullability.nullable,
          FieldNullability.elemNullable?]

/-- Witness for the C5 theorem: a LEFT join of the virtual tables t1 and
t2 keeps the left column as is and forces the right (array-typed) column
nullable without touching its element nullability. -/
theorem c5_join_nullability_witness :
    getSourceColumnsForTableExpr gtEmpty joinCtes (some joinLeftExpr)
        false =
      .ok [{ tableAlias := "t1", columnName := "a",
             nullability := .any false, hidden := false }] ∧
    getSourceColumnsForTableExpr gtEmpty joinCtes (some joinRightExpr)
        false =
      .ok [{ tableAlias := "t2", columnName := "b",
             nullability := .array false false, hidden := false }] ∧
    getSourceColumnsForTableExpr gtEmpty joinCtes
        (some (.qualifiedJoin joinLeftExpr .LEFT joinRightExpr)) false =
      .ok [ { tableAlias := "t1", columnName := "a",
              nullability := .any false, hidden := false },
            { tableAlias := "t2", columnName := "b",
              nullability := .array true false, hidden := false } ] :=
  ⟨rfl, rfl,
    (c5_join_nullability gtEmpty joinCtes joinLeftExpr joinRightExpr .LEFT
        _ _ rfl rfl).1⟩

/-- C4, counterexample: with the virtual table o passed in as an outer
CTE, resolving WITH c AS (SELECT * FROM o) SELECT * FROM c fails with a
table-lookup error, although inferring the body of c directly in the
outer scope succeeds: the CTE body is not inferred in a scope containing
the outer CTEs, only the previous CTEs of the same WITH clause. -/
theorem c4_counterexample :
    getOutputColumns gtEmpty [outerCteTable] withInnerCteAst =
      .error "No such table o" ∧
    getOutputColumns gtEmpty [outerCteTable] selectFromOuterAst =
      .ok [{ name := "x", nullability := .any false }] :=
  ⟨rfl, rfl⟩

theorem loop_ok_characterization (gt : GetTable) :
    ∀ (withQueries : List WithQuery) (acc vts : List VirtualTable),
      getVirtualTablesLoop gt acc withQueries = .ok vts →
      ∃ rest, vts = acc ++ rest ∧ rest.length = withQueries.length ∧
        ∀ i wq, withQueries.get? i = some wq →
          ∃ cols,
            getOutputColumns gt (acc ++ rest.take i) wq.query = .ok cols ∧
            rest.get? i = some { name := wq.asName, columns := cols } := by
  intro withQueries
  induction withQueries with
  | nil =>
      intro acc vts h
      simp only [getVirtualTablesLoop, Except.ok.injEq] at h
      refine ⟨[], by simp [h], rfl, ?_⟩
      intro i wq hi
      simp at hi
  | cons wq rest ih =>
      intro acc vts h
      obtain ⟨asN, q⟩ := wq
      cases hc : getOutputColumns gt acc q with
      | error e =>
          simp only [getVirtualTablesLoop, hc] at h
          cases h
      | ok cols =>
          simp only [getVirtualTablesLoop, hc] at h
          obtain ⟨rest2, hv, hlen, hidx⟩ :=
            ih (acc ++ [{ name := asN, columns := cols }]) vts h
          refine ⟨{ name := asN, columns := cols } :: rest2, ?_, ?_, ?_⟩
          · rw [hv]; simp
          · simp [hlen]
          · intro i wq' hi
            cases i with
            | zero =>
                simp only [List.get?_cons_zero, Option.some.injEq] at hi
                subst hi
                refine ⟨cols, ?_, rfl⟩
                simpa [WithQuery.query] using hc
            | succ n =>
                simp only [List.get?_cons_succ] at hi
                obtain ⟨cols', h1, h2⟩ := hidx n wq' hi
                refine ⟨cols', ?_, by simpa using h2⟩
                simpa [List.take_succ_cons, List.append_assoc] using h1

theorem loop_error_shortcircuit (gt : GetTable) :
    ∀ (wqs1 : List WithQuery) (acc vts : List VirtualTable)
      (wq : WithQuery) (wqs2 : List WithQuery) (e : String),
      getVirtualTablesLoop gt acc wqs1 = .ok vts →
      getOutputColumns gt vts wq.query = .error e →
      getVirtualTablesLoop gt acc (wqs1 ++ wq :: wqs2) = .error e := by
  intro wqs1
  induction wqs1 with
  | nil =>
      intro acc vts wq wqs2 e h he
      obtain ⟨asN, q⟩ := wq
      simp only [getVirtualTablesLoop, Except.ok.injEq] at h
      subst h
      simp only [WithQuery.query] at he
      simp only [List.nil_append, getVirtualTablesLoop, he]
  | cons w rest ih =>
      intro acc vts wq wqs2 e h he
      obtain ⟨asN, q⟩ := w
      cases hc : getOutputColumns gt acc q with
      | error e2 =>
          simp only [getVirtualTablesLoop, hc] at h
          cases h
      | ok cols =>
          simp only [getVirtualTablesLoop, hc] at h
          simp only [List.cons_append, getVirtualTablesLoop, hc]
          exact ih (acc ++ [{ name := asN, columns := cols }]) vts wq wqs2 e
            h he

/-- C4, amended: CTEs of a WITH clause are resolved sequentially left to
right, the body of the i-th CTE being inferred in a scope containing
exactly the virtual tables of CTEs 0..i-1 of the same clause (outer CTEs
are not passed into the bodies), and the first CTE whose inference fails
makes the whole resolution return that error without consulting the
later CTEs. -/
theorem c4_cte_resolution (gt : GetTable) :
    (∀ (withQueries : List WithQuery) (virtualTables : List VirtualTable),
      getVirtualTablesForWithQueries gt withQueries = .ok virtualTables →
      virtualTables.length = withQueries.length ∧
      ∀ i wq, withQueries.get? i = some wq →
        ∃ cols,
          getOutputColumns gt (virtualTables.take i) wq.query = .ok cols ∧
          virtualTables.get? i =
            some { name := wq.asName, columns := cols }) ∧
    (∀ (wqs1 : List WithQuery) (virtualTables : List VirtualTable)
        (wq : WithQuery) (wqs2 : List WithQuery) (e : String),
      getVirtualTablesForWithQueries gt wqs1 = .ok virtualTables →
      getOutputColumns gt virtualTables wq.query = .error e →
      getVirtualTablesForWithQueries gt (wqs1 ++ wq :: wqs2) =
        .error e) := by
  constructor
  · intro wqs vts h
    obtain ⟨rest, hv, hlen, hidx⟩ :=
      loop_ok_characterization gt wqs [] vts h
    simp only [List.nil_append] at hv
    subst hv
    refine ⟨hlen, fun i wq hi => ?_⟩
    simpa using hidx i wq hi
  · intro wqs1 vts wq wqs2 e h he
    exact loop_error_shortcircuit gt wqs1 [] vts wq wqs2 e h he

/-- Witness for the C4 theorem: a single resolvable CTE named c. -/
theorem c4_cte_resolution_witness :
    getVirtualTablesForWithQueries gtEmpty
        [WithQuery.mk "c" constSelectAst] =
      .ok [{ name := "c",
             columns := [{ name := "?column?",
                           nullability := .any false }] }] ∧
    ([{ name := "c",
        columns := [{ name := "?column?", nullability := .any false }] }] :
          List VirtualTable).length =
        [WithQuery.mk "c" constSelectAst].length ∧
    ∀ i wq, [WithQuery.mk "c" constSelectAst].get? i = some wq →
      ∃ cols,
        getOutputColumns gtEmpty
            (([{ name := "c",
                 columns := [{ name := "?column?",
                               nullability := .any false }] }] :
                List VirtualTable).take i) wq.query = .ok cols ∧
        ([{ name := "c",
            columns := [{ name := "?column?",
                          nullability := .any false }] }] :
              List VirtualTable).get? i =
          some { name := wq.asName, columns := cols } :=
  ⟨rfl,
    (c4_cte_resolution gtEmpty).1 [WithQuery.mk "c" constSelectAst]
      [{ name := "c",
         columns := [{ name := "?column?", nullability := .any false }] }]
      rfl⟩

end Sqltyper
